import Mathlib

/-
Verification of the beautiful-number counter (src/src/beautiful.hpp).

The program counts 13-digit base-13 numbers whose first six digits sum to
the same value as their last six digits.  The C++ code is pure constexpr
arithmetic over int64_t; it is embedded here over Int (exact integers).
All intermediate values are shown to stay far below 2^63 (see the
overflow theorem below), so exact Int arithmetic coincides with the
program's int64_t arithmetic.

Division note: the C++ operator / on positive operands truncates toward
zero, which agrees with Lean's Int division whenever the numerator is
nonnegative; in binomial_n_5 the numerator is a product of five positive
factors whenever the division is reached (the guard returns 0 for n < 5),
so the embedding below is exact.
-/

set_option maxRecDepth 40000

namespace beautiful_numbers

-- constexpr int kDigits = 6;
def kDigits : Nat := 6

-- constexpr int kBase = 13;
def kBase : Int := 13

-- constexpr int kMaxSum = (kBase - 1) * kDigits; // 72
def kMaxSum : Nat := 12 * kDigits

-- C(n, 5) for small non-negative n (beautiful.hpp, binomial_n_5):
--   if (n_ < 5) return 0;
--   return (m * (m - 1) * (m - 2) * (m - 3) * (m - 4)) / 120;
def binomial_n_5 (n : Int) : Int :=
  if n < 5 then 0
  else (n * (n - 1) * (n - 2) * (n - 3) * (n - 4)) / 120

-- Precomputed C(6, k) for k = 0..6 (beautiful.hpp, kBinom6)
def kBinom6 : List Int := [1, 6, 15, 20, 15, 6, 1]

-- The loop body of ways_for_sum (beautiful.hpp, lines 70-92), with the
-- loop counter k and the remaining iteration budget made explicit:
-- fuel + k = kDigits + 1 at every call, so fuel = 0 is the exit k > kDigits.
-- The early break when arg = sum_ - kBase*k + 5 < 5 returns the
-- accumulator unchanged, exactly as the C++ break does.
def ways_loop (sum_ : Int) : Nat → Nat → Int → Int → Int
  | 0, _, result, _ => result
  | fuel + 1, k, result, sign =>
    if sum_ - kBase * k + 5 < 5 then result
    else ways_loop sum_ fuel (k + 1)
      (result + sign * kBinom6.getD k 0 * binomial_n_5 (sum_ - kBase * k + 5)) (-sign)

-- N(S) computed via inclusion-exclusion (beautiful.hpp, ways_for_sum):
-- result = 0, sign = 1, k runs from 0 to kDigits inclusive.
def ways_for_sum (sum_ : Int) : Int := ways_loop sum_ (kDigits + 1) 0 0 1

-- Compile-time lookup table (beautiful.hpp, build_ways_lookup_table):
-- table[s] = ways_for_sum(s) for s = 0..kMaxSum.
def build_ways_lookup_table : List Int :=
  (List.range (kMaxSum + 1)).map (fun s => ways_for_sum s)

-- constexpr std::array kWays = build_ways_lookup_table();
def kWays : List Int := build_ways_lookup_table

-- total = sum over s = 0..kMaxSum of kBase * kWays[s] * kWays[s]
-- (beautiful.hpp, count_beautiful_numbers)
def count_beautiful_numbers : Int :=
  ((List.range (kMaxSum + 1)).map (fun s => kBase * kWays.getD s 0 * kWays.getD s 0)).sum

/-- Spec-side definition for the refinement claim C2, following the spec
sentence word for word: N(S) = sum over k = 0..6 of
(-1)^k * C(6,k) * C(S - 13k + 5, 5), with no early exit. -/
def ways_for_sum_full (S : Int) : Int :=
  ∑ k ∈ Finset.range (kDigits + 1),
    (-1 : Int) ^ k * kBinom6.getD k 0 * binomial_n_5 (S - kBase * k + 5)

-- Helper lemmas ------------------------------------------------------------

lemma descFactorial_five_cast (m : Nat) (h : 5 ≤ m) :
    ((m.descFactorial 5 : Nat) : Int)
      = (m : Int) * ((m : Int) - 1) * ((m : Int) - 2) * ((m : Int) - 3) * ((m : Int) - 4) := by
  obtain ⟨c, rfl⟩ := Nat.exists_eq_add_of_le h
  have e1 : 5 + c - 1 = c + 4 := by omega
  have e2 : 5 + c - 2 = c + 3 := by omega
  have e3 : 5 + c - 3 = c + 2 := by omega
  have e4 : 5 + c - 4 = c + 1 := by omega
  simp [Nat.descFactorial, e1, e2, e3, e4]
  ring

lemma binomial_n_5_eq_choose (n : Int) (h : 5 ≤ n) :
    binomial_n_5 n = (n.toNat.choose 5 : Int) := by
  have hn : ((n.toNat : Nat) : Int) = n := Int.toNat_of_nonneg (by omega)
  rw [binomial_n_5, if_neg (by omega)]
  have hd := descFactorial_five_cast n.toNat (by omega)
  rw [hn] at hd
  rw [← hd, Nat.descFactorial_eq_factorial_mul_choose]
  have h5 : Nat.factorial 5 = 120 := by decide
  rw [h5]
  push_cast
  rw [Int.mul_ediv_cancel_left _ (by norm_num)]

lemma binomial_n_5_mul_120 (n : Int) (h : 5 ≤ n) :
    120 * binomial_n_5 n = n * (n - 1) * (n - 2) * (n - 3) * (n - 4) := by
  have hn : ((n.toNat : Nat) : Int) = n := Int.toNat_of_nonneg (by omega)
  rw [binomial_n_5_eq_choose n h]
  have hd := descFactorial_five_cast n.toNat (by omega)
  rw [hn] at hd
  rw [← hd, Nat.descFactorial_eq_factorial_mul_choose]
  have h5 : Nat.factorial 5 = 120 := by decide
  rw [h5]
  push_cast
  ring

lemma ways_loop_zero (S : Int) (k : Nat) (result sign : Int) :
    ways_loop S 0 k result sign = result := rfl

lemma ways_loop_succ (S : Int) (fuel k : Nat) (result sign : Int) :
    ways_loop S (fuel + 1) k result sign =
      if S - kBase * k + 5 < 5 then result
      else ways_loop S fuel (k + 1)
        (result + sign * kBinom6.getD k 0 * binomial_n_5 (S - kBase * k + 5)) (-sign) := rfl

lemma ways_for_sum_neg (S : Int) (h : S < 0) : ways_for_sum S = 0 := by
  show ways_loop S 7 0 0 1 = 0
  rw [ways_loop_succ, if_pos (by norm_num [kBase]; omega)]

lemma ways_for_sum_of_ge_78 (S : Int) (h : 78 ≤ S) :
    ways_for_sum S =
      binomial_n_5 (S + 5) - 6 * binomial_n_5 (S - 8) + 15 * binomial_n_5 (S - 21)
        - 20 * binomial_n_5 (S - 34) + 15 * binomial_n_5 (S - 47)
        - 6 * binomial_n_5 (S - 60) + binomial_n_5 (S - 73) := by
  show ways_loop S 7 0 0 1 = _
  rw [ways_loop_succ, if_neg (by norm_num [kBase]; omega)]
  rw [ways_loop_succ, if_neg (by norm_num [kBase]; omega)]
  rw [ways_loop_succ, if_neg (by norm_num [kBase]; omega)]
  rw [ways_loop_succ, if_neg (by norm_num [kBase]; omega)]
  rw [ways_loop_succ, if_neg (by norm_num [kBase]; omega)]
  rw [ways_loop_succ, if_neg (by norm_num [kBase]; omega)]
  rw [ways_loop_succ, if_neg (by norm_num [kBase]; omega)]
  rw [ways_loop_zero]
  norm_num [kBase, kBinom6]
  ring_nf

-- For S above 77 all seven inclusion-exclusion terms are evaluated, and
-- their alternating sum is the sixth finite difference (step 13) of a
-- degree-5 polynomial, hence identically zero.  For 73 <= S <= 77 the
-- value is checked by direct evaluation.
lemma ways_for_sum_zero_of_gt_72 (S : Int) (h : 72 < S) : ways_for_sum S = 0 := by
  rcases lt_or_le S 78 with h77 | h78
  · interval_cases S <;> decide
  · rw [ways_for_sum_of_ge_78 S h78]
    have h1 := binomial_n_5_mul_120 (S + 5) (by omega)
    have h2 := binomial_n_5_mul_120 (S - 8) (by omega)
    have h3 := binomial_n_5_mul_120 (S - 21) (by omega)
    have h4 := binomial_n_5_mul_120 (S - 34) (by omega)
    have h5 := binomial_n_5_mul_120 (S - 47) (by omega)
    have h6 := binomial_n_5_mul_120 (S - 60) (by omega)
    have h7 := binomial_n_5_mul_120 (S - 73) (by omega)
    have key : 120 * (binomial_n_5 (S + 5) - 6 * binomial_n_5 (S - 8)
        + 15 * binomial_n_5 (S - 21) - 20 * binomial_n_5 (S - 34)
        + 15 * binomial_n_5 (S - 47) - 6 * binomial_n_5 (S - 60)
        + binomial_n_5 (S - 73)) = 0 := by
      linear_combination h1 - 6 * h2 + 15 * h3 - 20 * h4 + 15 * h5 - 6 * h6 + h7
    omega

lemma sum_13w2_nonneg (m : Nat) :
    0 ≤ ∑ s ∈ Finset.range m, kBase * kWays.getD s 0 * kWays.getD s 0 := by
  apply Finset.sum_nonneg
  intro i _
  have hw := mul_self_nonneg (kWays.getD i 0)
  have hb : (0 : Int) ≤ kBase := by norm_num [kBase]
  nlinarith

lemma partial_sum_le_total (m : Nat) (hm : m ≤ kMaxSum + 1) :
    ∑ s ∈ Finset.range m, kBase * kWays.getD s 0 * kWays.getD s 0
      ≤ ∑ s ∈ Finset.range (kMaxSum + 1), kBase * kWays.getD s 0 * kWays.getD s 0 := by
  apply Finset.sum_le_sum_of_subset_of_nonneg (Finset.range_subset.mpr hm)
  intro i _ _
  have hw := mul_self_nonneg (kWays.getD i 0)
  have hb : (0 : Int) ≤ kBase := by norm_num [kBase]
  nlinarith

-- Claim theorems -----------------------------------------------------------

/-- Claim C1: count_beautiful_numbers returns exactly the sum over S from 0
to 72 of 13 * N(S)^2 where N(S) = ways_for_sum(S); equivalently the sum
over S of 13 * kWays[S]^2, the loop including both endpoints S = 0 and
S = 72. -/
theorem count_beautiful_numbers_eq_sum_of_squares :
    count_beautiful_numbers
        = (∑ s ∈ Finset.range (kMaxSum + 1), 13 * ways_for_sum (s : Int) ^ 2)
      ∧ count_beautiful_numbers
        = (∑ s ∈ Finset.range (kMaxSum + 1), 13 * kWays.getD s 0 ^ 2) := by
  constructor <;> decide

/-- Claim C2: for every integer S in [0,72] the early-exit loop of
ways_for_sum returns exactly the full 7-term inclusion-exclusion sum;
the early exit never drops a non-zero term. -/
theorem ways_for_sum_eq_full_inclusion_exclusion (S : Int) (h1 : 0 ≤ S) (h2 : S ≤ 72) :
    ways_for_sum S = ways_for_sum_full S := by
  have aux : ∀ m : Nat, m < 73 → ways_for_sum (m : Int) = ways_for_sum_full (m : Int) := by
    decide
  have hS : ((S.toNat : Nat) : Int) = S := Int.toNat_of_nonneg h1
  have hm := aux S.toNat (by omega)
  rwa [hS] at hm

/-- Witness for claim C2 at S = 36. -/
theorem ways_for_sum_eq_full_inclusion_exclusion_witness :
    ways_for_sum 36 = ways_for_sum_full 36 :=
  ways_for_sum_eq_full_inclusion_exclusion 36 (by decide) (by decide)

/-- Claim C3: the lookup table has all 73 entries and satisfies
kWays[S] = ways_for_sum(S) for every S in [0,72]; being a pure constant
it is fully built before any read and never mutated. -/
theorem kWays_entries_eq_ways_for_sum :
    kWays.length = kMaxSum + 1
      ∧ ∀ s : Nat, s < kMaxSum + 1 → kWays.getD s 0 = ways_for_sum (s : Int) := by
  constructor <;> decide

/-- Witness for claim C3 at S = 36. -/
theorem kWays_entries_eq_ways_for_sum_witness :
    kWays.getD 36 0 = ways_for_sum (36 : Int) :=
  kWays_entries_eq_ways_for_sum.2 36 (by decide)

/-- Claim C4: digit-reversal symmetry, ways_for_sum(S) = ways_for_sum(72 - S)
for every S in [0,72]. -/
theorem ways_for_sum_reversal_symm (S : Int) (h1 : 0 ≤ S) (h2 : S ≤ 72) :
    ways_for_sum S = ways_for_sum (72 - S) := by
  have aux : ∀ m : Nat, m < 73 → ways_for_sum (m : Int) = ways_for_sum (72 - (m : Int)) := by
    decide
  have hS : ((S.toNat : Nat) : Int) = S := Int.toNat_of_nonneg h1
  have hm := aux S.toNat (by omega)
  rwa [hS] at hm

/-- Witness for claim C4 at S = 30. -/
theorem ways_for_sum_reversal_symm_witness :
    ways_for_sum 30 = ways_for_sum (72 - 30) :=
  ways_for_sum_reversal_symm 30 (by decide) (by decide)

/-- Claim C5: the sum of ways_for_sum(S) over S = 0..72 is 13^6 = 4826809;
every 6-digit base-13 sequence is counted exactly once. -/
theorem ways_for_sum_total_count :
    (∑ s ∈ Finset.range (kMaxSum + 1), ways_for_sum (s : Int)) = 13 ^ 6
      ∧ (13 : Int) ^ 6 = 4826809 := by
  constructor <;> decide

/-- Claim C6: binomial_n_5 is total over the integers: for n below 5
(negatives included) it returns 0, and for n at least 5 it returns
n(n-1)(n-2)(n-3)(n-4)/120, which equals the binomial coefficient
C(n,5). -/
theorem binomial_n_5_contract (n : Int) :
    (n < 5 → binomial_n_5 n = 0)
      ∧ (5 ≤ n → binomial_n_5 n = n * (n - 1) * (n - 2) * (n - 3) * (n - 4) / 120
          ∧ binomial_n_5 n = (n.toNat.choose 5 : Int)) := by
  refine ⟨fun h => ?_, fun h => ⟨?_, binomial_n_5_eq_choose n h⟩⟩
  · rw [binomial_n_5, if_pos h]
  · rw [binomial_n_5, if_neg (by omega)]

/-- Witness for claim C6 at n = -3 and n = 7 (C(7,5) = 21). -/
theorem binomial_n_5_contract_witness :
    binomial_n_5 (-3) = 0 ∧ binomial_n_5 7 = ((7 : Int).toNat.choose 5 : Int) :=
  ⟨(binomial_n_5_contract (-3)).1 (by decide),
   ((binomial_n_5_contract 7).2 (by decide)).2⟩

/-- Claim C7: ways_for_sum(S) is nonnegative for every S in [0,72], and is
zero for every integer S outside [0,72], negative S and S above 72
included. -/
theorem ways_for_sum_nonneg_and_zero_outside (S : Int) :
    (0 ≤ S → S ≤ 72 → 0 ≤ ways_for_sum S)
      ∧ (S < 0 ∨ 72 < S → ways_for_sum S = 0) := by
  constructor
  · intro h1 h2
    have aux : ∀ m : Nat, m < 73 → 0 ≤ ways_for_sum (m : Int) := by decide
    have hS : ((S.toNat : Nat) : Int) = S := Int.toNat_of_nonneg h1
    have hm := aux S.toNat (by omega)
    rwa [hS] at hm
  · rintro (h | h)
    · exact ways_for_sum_neg S h
    · exact ways_for_sum_zero_of_gt_72 S h

/-- Witness for claim C7 at S = 36 (inside), S = -1 and S = 100 (outside). -/
theorem ways_for_sum_nonneg_and_zero_outside_witness :
    0 ≤ ways_for_sum 36 ∧ ways_for_sum (-1) = 0 ∧ ways_for_sum 100 = 0 :=
  ⟨(ways_for_sum_nonneg_and_zero_outside 36).1 (by decide) (by decide),
   (ways_for_sum_nonneg_and_zero_outside (-1)).2 (Or.inl (by decide)),
   (ways_for_sum_nonneg_and_zero_outside 100).2 (Or.inr (by decide))⟩

/-- Claim C8: at the boundaries of the half-sum range,
ways_for_sum(0) = 1 and ways_for_sum(72) = 1. -/
theorem ways_for_sum_boundary_values :
    ways_for_sum 0 = 1 ∧ ways_for_sum 72 = 1 := by
  constructor <;> decide

/-- Claim C9: the arithmetic stays inside the signed 64-bit range: for every
n reachable inside binomial_n_5 during the table build (5 up to 77) the
intermediate five-factor product is below 2^63, every partial sum of
13 * kWays[S]^2 is nonnegative and below 2^63, and so is the final total
returned by count_beautiful_numbers; hence int64 arithmetic agrees with
exact integer arithmetic throughout. -/
theorem int64_arithmetic_in_range :
    (∀ n : Int, 5 ≤ n → n ≤ 77 →
        n * (n - 1) * (n - 2) * (n - 3) * (n - 4) < 2 ^ 63)
      ∧ (∀ m : Nat, m ≤ kMaxSum + 1 →
          0 ≤ (∑ s ∈ Finset.range m, kBase * kWays.getD s 0 * kWays.getD s 0)
            ∧ (∑ s ∈ Finset.range m, kBase * kWays.getD s 0 * kWays.getD s 0) < 2 ^ 63)
      ∧ count_beautiful_numbers < 2 ^ 63 := by
  refine ⟨?_, ?_, by decide⟩
  · intro n h5 h77
    have aux : ∀ m : Nat, m < 78 →
        (m : Int) * ((m : Int) - 1) * ((m : Int) - 2) * ((m : Int) - 3) * ((m : Int) - 4)
          < 2 ^ 63 := by decide
    have hS : ((n.toNat : Nat) : Int) = n := Int.toNat_of_nonneg (by omega)
    have hm := aux n.toNat (by omega)
    rwa [hS] at hm
  · intro m hm
    exact ⟨sum_13w2_nonneg m, lt_of_le_of_lt (partial_sum_le_total m hm) (by decide)⟩

/-- Witness for claim C9 at the extreme points n = 77 and m = 73. -/
theorem int64_arithmetic_in_range_witness :
    (77 : Int) * (77 - 1) * (77 - 2) * (77 - 3) * (77 - 4) < 2 ^ 63
      ∧ (∑ s ∈ Finset.range 73, kBase * kWays.getD s 0 * kWays.getD s 0) < 2 ^ 63 :=
  ⟨int64_arithmetic_in_range.1 77 (by decide) (by decide),
   (int64_arithmetic_in_range.2.1 73 (by decide)).2⟩

/-- Claim C10: for every n at least 5, the product of the five consecutive
integers n..n-4 is divisible by 120, the truncating division in
binomial_n_5 is exact (120 times the result recovers the product), and
the result equals the mathematical binomial coefficient C(n,5). -/
theorem binomial_n_5_exact_division (n : Int) (h : 5 ≤ n) :
    (120 : Int) ∣ n * (n - 1) * (n - 2) * (n - 3) * (n - 4)
      ∧ 120 * binomial_n_5 n = n * (n - 1) * (n - 2) * (n - 3) * (n - 4)
      ∧ binomial_n_5 n = (n.toNat.choose 5 : Int) :=
  ⟨⟨binomial_n_5 n, (binomial_n_5_mul_120 n h).symm⟩,
   binomial_n_5_mul_120 n h, binomial_n_5_eq_choose n h⟩

/-- Witness for claim C10 at n = 9 (C(9,5) = 126). -/
theorem binomial_n_5_exact_division_witness :
    (120 : Int) ∣ 9 * (9 - 1) * (9 - 2) * (9 - 3) * (9 - 4)
      ∧ binomial_n_5 9 = ((9 : Int).toNat.choose 5 : Int) :=
  ⟨(binomial_n_5_exact_division 9 (by decide)).1,
   (binomial_n_5_exact_division 9 (by decide)).2.2⟩

end beautiful_numbers
